import Mathlib

/-!
Verification of the moveit_servo servo-calculation core
(`moveit_ros/moveit_servo/src/servo_calcs.cpp`) against its
natural-language specification.

The embedding models C++ `double` arithmetic as exact rationals (`ℚ`);
IEEE special values (NaN, ±∞) are modelled explicitly where the code
branches on them (`checkValidCommand`).  All definitions are translated
from the source; definitions whose doc comment says "from the claim's
words" exist only to be compared against the source embedding.
-/

namespace MoveitServo

/-- Status codes of the servo node (`status_codes.h`); published once per tick. -/
inductive StatusCode
  | NO_WARNING
  | DECELERATE_FOR_SINGULARITY
  | HALT_FOR_SINGULARITY
  | DECELERATE_FOR_COLLISION
  | HALT_FOR_COLLISION
  | JOINT_BOUND
deriving DecidableEq, Repr

/-- Dot product of two coordinate lists, used for `u · Δx` in the singularity check. -/
def dotList (u v : List ℚ) : ℚ :=
  ((u.zip v).map fun p => p.1 * p.2).sum

/-- Matrix-vector product over list-of-rows matrices (Eigen `M * v`). -/
def matVecMul (m : List (List ℚ)) (v : List ℚ) : List ℚ :=
  m.map fun row => dotList row v

/-- Sign resolution of the singular direction in
`ServoCalcs::velocityScalingFactorForSingularity` (servo_calcs.cpp:655-662):
the last column `u` of `U` is negated exactly when
`ini_condition >= new_condition`, where `new_condition` is the condition
number recomputed at the probe-perturbed joint positions. -/
def resolvedSingularDirection (ini_condition new_condition : ℚ) (u : List ℚ) : List ℚ :=
  if ini_condition ≥ new_condition then u.map (fun x => -x) else u

/-- Embeds `ServoCalcs::velocityScalingFactorForSingularity`
(servo_calcs.cpp:625-693).  The geometric inputs are taken as parameters:
`ini_condition` is σ₁/σₘ of the SVD of the (possibly row-reduced) Jacobian,
`new_condition` the condition number at the probe-perturbed state, `u` the
last column of `U`, and `commanded_velocity` the commanded vector `Δx`.
`st` is the status field on entry; the pair returned is
(velocity_scale, status on exit). -/
def velocityScalingFactorForSingularity
    (lower_singularity_threshold hard_stop_singularity_threshold : ℚ)
    (ini_condition new_condition : ℚ)
    (u commanded_velocity : List ℚ) (st : StatusCode) : ℚ × StatusCode :=
  let vector_toward_singularity := resolvedSingularDirection ini_condition new_condition u
  let dot := dotList vector_toward_singularity commanded_velocity
  if dot > 0 then
    if lower_singularity_threshold < ini_condition ∧
        ini_condition < hard_stop_singularity_threshold then
      (1 - (ini_condition - lower_singularity_threshold) /
            (hard_stop_singularity_threshold - lower_singularity_threshold),
       StatusCode.DECELERATE_FOR_SINGULARITY)
    else if ini_condition > hard_stop_singularity_threshold then
      (0, StatusCode.HALT_FOR_SINGULARITY)
    else
      (1, st)
  else
    (1, st)

/-- Joint positions held by `kinematic_state_` when
`velocityScalingFactorForSingularity` returns (servo_calcs.cpp:648-662):
the probe writes `θ + J⁺·(u/100)` into the state via
`setJointGroupPositions` and the function never writes the entry
positions back. -/
def probeReturnPositions (theta : List ℚ) (pseudo_inverse : List (List ℚ))
    (u : List ℚ) : List ℚ :=
  List.zipWith (· + ·) theta (matVecMul pseudo_inverse (u.map (· / 100)))

/-- Collision scaling step of `ServoCalcs::internalServoUpdate`
(servo_calcs.cpp:497-513): the raw `collision_velocity_scale_` is read and
multiplied into the joint delta; no clamping occurs anywhere on the path.
Returns (scaled delta, status on exit). -/
def applyCollisionScale (collision_velocity_scale delta_theta : ℚ)
    (st : StatusCode) : ℚ × StatusCode :=
  let st' :=
    if 0 < collision_velocity_scale ∧ collision_velocity_scale < 1 then
      StatusCode.DECELERATE_FOR_COLLISION
    else if collision_velocity_scale = 0 then
      StatusCode.HALT_FOR_COLLISION
    else st
  (collision_velocity_scale * delta_theta, st')

/-- Embeds `ServoCalcs::collisionVelocityScaleCB` (servo_calcs.cpp:1128-1131):
the received value is stored as-is. -/
def collisionVelocityScaleCB (msg_data : ℚ) : ℚ :=
  msg_data

/-- Saturation bound of `zero_velocity_count_` (`std::numeric_limits<int>::max()`). -/
def intMaxValue : ℤ := 2147483647

/-- Emit decision and counter update of one tick of `ServoCalcs::run` on
which `have_nonzero_command_` is false, i.e. both stored commands are
all-zero (servo_calcs.cpp:357-383): `ok_to_publish_` is decided from the
pre-increment `zero_velocity_count_`, then the counter is incremented,
saturating at `INT_MAX`.  Note `have_nonzero_command_`
(servo_calcs.cpp:289) is the disjunction of the two nonzero flags alone
and ignores staleness, so this path is narrower than "no nonzero unstale
command present": a tick holding a nonzero stale command takes the other
path — see `emitDecisionTick` for the general case.
Returns (ok_to_publish, new zero_velocity_count). -/
def haltTick (num_outgoing_halt_msgs_to_publish zero_velocity_count : ℤ) : Bool × ℤ :=
  let ok : Bool :=
    if num_outgoing_halt_msgs_to_publish ≠ 0 ∧
        zero_velocity_count > num_outgoing_halt_msgs_to_publish then false else true
  let count' :=
    if zero_velocity_count < intMaxValue then zero_velocity_count + 1
    else zero_velocity_count
  (ok, count')

/-- Emit decision and counter update of one tick of `ServoCalcs::run` as a
function of the two snapshot nonzero flags (servo_calcs.cpp:349-405):
`have_nonzero_command_` is `have_nonzero_twist_stamped_ ||
have_nonzero_joint_command_` (servo_calcs.cpp:289) and ignores staleness.
When it is false, the skip decision (servo_calcs.cpp:359-370) reads the
pre-increment counter and the counter then increments, saturating at
`INT_MAX` (servo_calcs.cpp:374-379); when it is true the tick always
publishes and resets the counter to 0 (servo_calcs.cpp:382) — even when
the nonzero command is stale, in which case command selection
(servo_calcs.cpp:315-339) ran the no-motion branch.
Returns (ok_to_publish, new zero_velocity_count). -/
def emitDecisionTick (have_nonzero_twist_stamped have_nonzero_joint_command : Bool)
    (num_outgoing_halt_msgs_to_publish zero_velocity_count : ℤ) : Bool × ℤ :=
  let have_nonzero_command := have_nonzero_twist_stamped || have_nonzero_joint_command
  let ok : Bool :=
    if have_nonzero_command = false ∧ num_outgoing_halt_msgs_to_publish ≠ 0 ∧
        zero_velocity_count > num_outgoing_halt_msgs_to_publish then false else true
  let count' :=
    if have_nonzero_command = false then
      (if zero_velocity_count < intMaxValue then zero_velocity_count + 1
       else zero_velocity_count)
    else 0
  (ok, count')

/-- Iterates `haltTick` over `n` consecutive all-zero ticks, returning the
list of publish decisions. -/
def haltTickStream (num : ℤ) : ℕ → ℤ → List Bool
  | 0, _ => []
  | n + 1, count =>
    let r := haltTick num count
    r.1 :: haltTickStream num n r.2

/-- Embeds `isNonZero(const control_msgs::msg::JointJog&)`
(servo_calcs.cpp:59-68): folds `all_zeros &= (delta == 0.0)` over the
velocities and returns the negation. -/
def isNonZeroJog (velocities : List ℚ) : Bool :=
  !(velocities.foldl (fun all_zeros delta => all_zeros && decide (delta = 0)) true)

/-- Which branch a tick takes after command selection. -/
inductive TickBranch
  | cartesian
  | joint
  | noMotion
deriving DecidableEq, Repr

/-- Command selection of `ServoCalcs::run` (servo_calcs.cpp:313-339):
Cartesian runs iff the twist is nonzero and unstale, else the joint branch
iff the jog is nonzero and unstale, else the no-motion fallback. -/
def selectBranch (have_nonzero_twist twist_stale have_nonzero_joint joint_stale : Bool) :
    TickBranch :=
  if have_nonzero_twist && !twist_stale then TickBranch.cartesian
  else if have_nonzero_joint && !joint_stale then TickBranch.joint
  else TickBranch.noMotion

/-- Per-variable bounds of a joint, as in `moveit::core::VariableBounds`
(only the fields `enforceSingleVelAccelLimit` reads). -/
structure VariableBounds where
  velocity_bounded : Bool
  min_velocity : ℚ
  max_velocity : ℚ
  acceleration_bounded : Bool
  min_acceleration : ℚ
  max_acceleration : ℚ
deriving DecidableEq, Repr

/-- Acceleration-clip step of `ServoCalcs::enforceSingleVelAccelLimit`
(servo_calcs.cpp:712-740).  `accel` is `(delta/T - prev_vel)/T` as computed
by the caller `enforceSRDFAccelVelLimits` from the pre-clip delta; the clip
is only applied when `|relative_change| < 1`. -/
def clipAccelStep (T : ℚ) (bound : VariableBounds) (prev_vel accel delta : ℚ) : ℚ :=
  if bound.acceleration_bounded then
    if accel < bound.min_acceleration then
      let relative_change := ((bound.min_acceleration * T + prev_vel) * T) / delta
      if |relative_change| < 1 then relative_change * delta else delta
    else if accel > bound.max_acceleration then
      let relative_change := ((bound.max_acceleration * T + prev_vel) * T) / delta
      if |relative_change| < 1 then relative_change * delta else delta
    else delta
  else delta

/-- Velocity-clip step of `ServoCalcs::enforceSingleVelAccelLimit`
(servo_calcs.cpp:742-771), run after the acceleration clip on the possibly
already-clipped delta. -/
def clipVelStep (T : ℚ) (bound : VariableBounds) (delta : ℚ) : ℚ :=
  if bound.velocity_bounded then
    let vel := delta / T
    if vel < bound.min_velocity then
      let relative_change := (bound.min_velocity * T) / delta
      if |relative_change| < 1 then relative_change * delta else delta
    else if vel > bound.max_velocity then
      let relative_change := (bound.max_velocity * T) / delta
      if |relative_change| < 1 then relative_change * delta else delta
    else delta
  else delta

/-- Embeds `ServoCalcs::enforceSingleVelAccelLimit` (servo_calcs.cpp:710-772)
together with the velocity/acceleration computation of its caller
(servo_calcs.cpp:695-708): returns the joint delta after both clips. -/
def enforceSingleVelAccelLimit (T : ℚ) (bound : VariableBounds)
    (prev_vel delta : ℚ) : ℚ :=
  clipVelStep T bound (clipAccelStep T bound prev_vel ((delta / T - prev_vel) / T) delta)

/-- Velocity emitted for one joint on a tick: the delta after the limit
enforcer, multiplied by the collision scale (servo_calcs.cpp:495-513), then
divided by the publish period in `applyJointUpdate` (servo_calcs.cpp:564). -/
def emittedJointVelocity (T : ℚ) (bound : VariableBounds)
    (prev_vel delta collision_scale : ℚ) : ℚ :=
  (collision_scale * enforceSingleVelAccelLimit T bound prev_vel delta) / T

/-- IEEE double as the validity checks see it: a finite value (modelled
exactly), NaN, or a signed infinity. -/
inductive Fp
  | finite (q : ℚ)
  | nan
  | posInf
  | negInf
deriving DecidableEq, Repr

/-- Result of `std::isnan`. -/
def Fp.isNaN : Fp → Bool
  | .nan => true
  | _ => false

/-- Result of the C++ comparison `fabs(x) > 1`: NaN comparisons are false,
infinities compare greater than 1. -/
def Fp.absGtOne : Fp → Bool
  | .finite q => decide (1 < |q|)
  | .nan => false
  | .posInf => true
  | .negInf => true

/-- Result of the C++ comparison `x != 0.0`: true for NaN and infinities. -/
def Fp.neZero : Fp → Bool
  | .finite q => decide (q ≠ 0)
  | _ => true

/-- Whether the component is a (finite) real number, as in the spec's word
"finite". -/
def Fp.isFiniteVal : Fp → Bool
  | .finite _ => true
  | _ => false

/-- Twist message payload: the six commanded components. -/
structure Twist where
  linear_x : Fp
  linear_y : Fp
  linear_z : Fp
  angular_x : Fp
  angular_y : Fp
  angular_z : Fp
deriving DecidableEq, Repr

/-- List of the six components in the order the code checks them. -/
def Twist.components (t : Twist) : List Fp :=
  [t.linear_x, t.linear_y, t.linear_z, t.angular_x, t.angular_y, t.angular_z]

/-- Value of the `command_in_type` parameter. -/
inductive CommandInType
  | unitless
  | speed_units
deriving DecidableEq, Repr

/-- Embeds `ServoCalcs::checkValidCommand(const TwistStamped&)`
(servo_calcs.cpp:940-965): reject iff some component `isnan`, or, in
`unitless` mode, some component has `fabs > 1`. -/
def checkValidCommandTwist (command_in_type : CommandInType) (cmd : Twist) : Bool :=
  if cmd.components.any Fp.isNaN then false
  else if command_in_type = CommandInType.unitless ∧ cmd.components.any Fp.absGtOne then
    false
  else true

/-- Early-exit behaviour of `ServoCalcs::cartesianServoCalcs`
(servo_calcs.cpp:413-421) as seen by `run` (servo_calcs.cpp:315-322): when
the command fails validation the branch produces no outgoing trajectory
and the status field is untouched; otherwise the computed trajectory goes
out.  `computed` stands for the trajectory the rest of the branch would
compute. -/
def cartesianBranchOutcome (command_in_type : CommandInType) (cmd : Twist)
    (st : StatusCode) (computed : List ℚ) : Option (List ℚ) × StatusCode :=
  if checkValidCommandTwist command_in_type cmd then (some computed, st)
  else (none, st)

/-- Embeds `isNonZero(const geometry_msgs::msg::TwistStamped&)`
(servo_calcs.cpp:53-57): any of the six components `!= 0.0`. -/
def isNonZeroTwist (t : Twist) : Bool :=
  t.components.any Fp.neZero

/-- One entry processed by `ServoCalcs::calculateWorstCaseStopTime`: the
joint's current velocity from the incoming joint state, and
`(min_acceleration, max_acceleration)` when a matching active joint model
with `acceleration_bounded_` exists. -/
structure StopTimeJoint where
  velocity : ℚ
  accel_bounds : Option (ℚ × ℚ)
deriving DecidableEq, Repr

/-- Loop body accumulator of `calculateWorstCaseStopTime`
(servo_calcs.cpp:873-923): `accel_limit` is declared outside the loop and
only overwritten when the joint has acceleration bounds, so a joint
without bounds divides by the most recently seen limit (initially 0). -/
def worstCaseStopTimeAux : List StopTimeJoint → ℚ → ℚ → ℚ
  | [], _, worst => worst
  | j :: rest, accel_limit, worst =>
    let accel_limit' :=
      match j.accel_bounds with
      | some b => min |b.1| |b.2|
      | none => accel_limit
    worstCaseStopTimeAux rest accel_limit' (max worst |j.velocity / accel_limit'|)

/-- Embeds `ServoCalcs::calculateWorstCaseStopTime` (servo_calcs.cpp:873-923):
the value published on the worst_case_stop_time topic.  (Caveat shared by
all rational models: where the C++ divides a nonzero velocity by a zero
limit it yields ±inf while `ℚ` division yields 0; the theorems below stay
away from that region.) -/
def calculateWorstCaseStopTime (joints : List StopTimeJoint) : ℚ :=
  worstCaseStopTimeAux joints 0 0

/-- Modelled from the claim's words, for comparison only: one accumulation
step of the maximum of `|velocity / accel_limit|` in which a joint lacking
an acceleration bound contributes nothing. -/
def claimedStopTimeStep (worst : ℚ) (j : StopTimeJoint) : ℚ :=
  match j.accel_bounds with
  | some b =>
    let limit := min |b.1| |b.2|
    max worst |j.velocity / limit|
  | none => worst

/-- Modelled from the claim's words, for comparison only: the maximum over
the joints of `|velocity / accel_limit|` where joints lacking an
acceleration bound are skipped entirely. -/
def claimedWorstCaseStopTime (joints : List StopTimeJoint) : ℚ :=
  joints.foldl claimedStopTimeStep 0

/-- Mutex-guarded twist-command slot fields written by
`ServoCalcs::twistStampedCB`. -/
structure TwistCommandSlot where
  latest_twist_stamped : Option Twist
  latest_nonzero_twist_stamped : Bool
  latest_twist_command_stamp : ℚ
deriving DecidableEq, Repr

/-- Embeds `ServoCalcs::twistStampedCB` (servo_calcs.cpp:1108-1116): the
message and its nonzero flag are always stored; the retained stamp is
overwritten only when the message stamp differs from `rclcpp::Time(0.)`. -/
def twistStampedCB (slot : TwistCommandSlot) (msg : Twist) (msg_stamp : ℚ) :
    TwistCommandSlot :=
  { latest_twist_stamped := some msg
    latest_nonzero_twist_stamped := isNonZeroTwist msg
    latest_twist_command_stamp :=
      if msg_stamp ≠ 0 then msg_stamp else slot.latest_twist_command_stamp }

/-- Staleness computation of `ServoCalcs::run` (servo_calcs.cpp:272-276):
stale iff `now - retained_stamp >= incoming_command_timeout`. -/
def twistCommandIsStale (now retained_stamp incoming_command_timeout : ℚ) : Bool :=
  decide (now - retained_stamp ≥ incoming_command_timeout)

/-- One point of the outgoing joint trajectory (the fields the Gazebo
duplication touches). -/
structure TrajPoint where
  time_from_start : ℚ
  positions : List ℚ
  velocities : List ℚ
deriving DecidableEq, Repr

/-- Default-constructed `trajectory_msgs::msg::JointTrajectoryPoint`:
zero time, empty vectors. -/
def defaultTrajPoint : TrajPoint :=
  { time_from_start := 0, positions := [], velocities := [] }

/-- C++ `std::vector::resize(n)` on the points vector: truncate or pad with
default-constructed points. -/
def resizePoints (l : List TrajPoint) (n : ℕ) : List TrajPoint :=
  l.take n ++ List.replicate (n - l.length) defaultTrajPoint

/-- Embeds `ServoCalcs::insertRedundantPointsIntoTrajectory`
(servo_calcs.cpp:575-588): resize the points to `count`, copy `points[0]`,
and assign `points[i]` for `i = 2 .. count-1` a copy with
`time_from_start = i·T`.  `points[1]` is never assigned. -/
def insertRedundantPointsIntoTrajectory (points : List TrajPoint) (count : ℤ)
    (T : ℚ) : List TrajPoint :=
  if count < 2 then points
  else
    let resized := resizePoints points count.toNat
    let point := resized.headD defaultTrajPoint
    ((List.range count.toNat).drop 2).foldl
      (fun acc i => acc.set i { point with time_from_start := (i : ℚ) * T })
      resized

/-! Theorems settling the claims. -/

/-- Claim C1, counterexample: with `lower = 2`, `hard = 4`, condition number
exactly equal to the hard threshold (κ = 4), probe condition 5 (no sign
flip) and resolved dot product 1 > 0, the code returns velocity scale 1
and leaves the status alone, where the claim demands scale 0 with
HALT_FOR_SINGULARITY. -/
theorem singularityScaleAtHardThresholdCex :
    velocityScalingFactorForSingularity 2 4 4 5 [1] [1] StatusCode.NO_WARNING
        = (1, StatusCode.NO_WARNING) ∧
      ((1 : ℚ), StatusCode.NO_WARNING)
        ≠ ((0 : ℚ), StatusCode.HALT_FOR_SINGULARITY) := by
  constructor
  · norm_num [velocityScalingFactorForSingularity, resolvedSingularDirection, dotList]
  · norm_num [Prod.ext_iff]

/-- Claim C1, amended: for every call of the singularity analyzer, writing
`d` for the dot product of the resolved direction with the commanded
vector and `κ` for the condition number: if `d ≤ 0` the scale is 1 and the
status untouched; if `d > 0` then the scale is 1 (status untouched) when
`κ ≤ lower`, `1 - (κ - lower)/(hard - lower)` with DECELERATE_FOR_SINGULARITY
when `lower < κ < hard`, 0 with HALT_FOR_SINGULARITY when `κ > hard`
strictly, and 1 (status untouched) when `κ = hard` exactly. -/
theorem velocityScalingFactorForSingularityCases
    (lower hard ini new : ℚ) (u dx : List ℚ) (st : StatusCode)
    (hlh : lower ≤ hard) :
    (dotList (resolvedSingularDirection ini new u) dx ≤ 0 →
      velocityScalingFactorForSingularity lower hard ini new u dx st = (1, st)) ∧
    (0 < dotList (resolvedSingularDirection ini new u) dx →
      (ini ≤ lower →
        velocityScalingFactorForSingularity lower hard ini new u dx st = (1, st)) ∧
      (lower < ini → ini < hard →
        velocityScalingFactorForSingularity lower hard ini new u dx st =
          (1 - (ini - lower) / (hard - lower), StatusCode.DECELERATE_FOR_SINGULARITY)) ∧
      (hard < ini →
        velocityScalingFactorForSingularity lower hard ini new u dx st =
          (0, StatusCode.HALT_FOR_SINGULARITY)) ∧
      (ini = hard →
        velocityScalingFactorForSingularity lower hard ini new u dx st = (1, st))) := by
  unfold velocityScalingFactorForSingularity
  constructor
  · intro hd
    rw [if_neg (by exact not_lt.mpr hd)]
  · intro hd
    rw [if_pos hd]
    refine ⟨?_, ?_, ?_, ?_⟩
    · intro hle
      rw [if_neg (by rintro ⟨h1, _⟩; exact absurd h1 (not_lt.mpr hle)),
        if_neg (by exact not_lt.mpr (le_trans hle hlh))]
    · intro h1 h2
      rw [if_pos ⟨h1, h2⟩]
    · intro hh
      rw [if_neg (by rintro ⟨_, h2⟩; exact absurd hh (not_lt.mpr (le_of_lt h2))),
        if_pos hh]
    · intro he
      rw [if_neg (by rintro ⟨_, h2⟩; exact absurd he (ne_of_lt h2)),
        if_neg (by rw [he]; exact lt_irrefl hard)]

/-- Claim C1, witness: the amended theorem applied at `lower = 2`,
`hard = 4`, `κ = 3`, probe condition 5, `u = [1]`, `Δx = [1]`: the
deceleration branch yields scale 1/2. -/
theorem velocityScalingFactorForSingularityCasesWitness :
    velocityScalingFactorForSingularity 2 4 3 5 [1] [1] StatusCode.NO_WARNING
      = (1 - (3 - 2) / (4 - 2), StatusCode.DECELERATE_FOR_SINGULARITY) :=
  ((velocityScalingFactorForSingularityCases 2 4 3 5 [1] [1] StatusCode.NO_WARNING
      (by norm_num)).2
    (by norm_num [dotList, resolvedSingularDirection])).2.1 (by norm_num) (by norm_num)

/-- Claim C4, counterexample: a tick holding a nonzero but stale twist and
no jog is a tick where no nonzero unstale command is present — command
selection takes the no-motion branch — yet because the emit decision keys
on `have_nonzero_command_`, which ignores staleness, with
`num_outgoing_halt_msgs_to_publish = 2` and counter 5 the code publishes
(`ok_to_publish_ = true`) and resets the counter to 0, where the claim
demands no publish (2 ≠ 0 and 5 > 2) and an incremented counter (6). -/
theorem staleNonzeroCommandResetsCounterCex :
    selectBranch true true false false = TickBranch.noMotion ∧
    emitDecisionTick true false 2 5 = (true, 0) ∧
    ((true, (0 : ℤ)) ≠ ((false : Bool), (6 : ℤ))) := by
  refine ⟨rfl, by decide, by decide⟩

/-- Helper: when both nonzero flags are false, the general emit decision of
the tick coincides with the all-zero halt path. -/
theorem emitDecisionTickAllZero (num count : ℤ) :
    emitDecisionTick false false num count = haltTick num count := by
  have h1 : (emitDecisionTick false false num count).1 = (haltTick num count).1 := by
    show (if (false || false) = false ∧ num ≠ 0 ∧ count > num then (false : Bool)
        else true)
      = if num ≠ 0 ∧ count > num then (false : Bool) else true
    by_cases hc : num ≠ 0 ∧ count > num
    · rw [if_pos ⟨rfl, hc⟩, if_pos hc]
    · rw [if_neg (by rintro ⟨-, h2, h3⟩; exact hc ⟨h2, h3⟩), if_neg hc]
  have h2 : (emitDecisionTick false false num count).2 = (haltTick num count).2 := by
    show (if (false || false) = false then
        (if count < intMaxValue then count + 1 else count) else 0)
      = if count < intMaxValue then count + 1 else count
    rw [if_pos (show (false || false) = false from rfl)]
  exact Prod.ext h1 h2

/-- Claim C4, amended: on a tick where both stored commands are all-zero
(both nonzero flags false) the counter increments, saturating at INT_MAX,
and the command is published iff `num_outgoing_halt_msgs_to_publish = 0`
or the pre-increment counter does not exceed it — so with `num = 2` and an
all-zero stream exactly three halt commands go out and tick 4 emits none.
But the decision reads `have_nonzero_command_`, which ignores staleness:
on any tick where some stored command is nonzero — even a stale one — the
tick publishes unconditionally and resets the counter to 0. -/
theorem emitDecisionTickCases (tw jt : Bool) (num count : ℤ) :
    (tw = false → jt = false →
      (((emitDecisionTick tw jt num count).1 = true ↔ (num = 0 ∨ count ≤ num)) ∧
       (count < intMaxValue → (emitDecisionTick tw jt num count).2 = count + 1) ∧
       (intMaxValue ≤ count → (emitDecisionTick tw jt num count).2 = count))) ∧
    ((tw || jt) = true →
      (emitDecisionTick tw jt num count).1 = true ∧
      (emitDecisionTick tw jt num count).2 = 0) ∧
    emitDecisionTick false false num count = haltTick num count ∧
    haltTickStream 2 4 0 = [true, true, true, false] := by
  refine ⟨?_, ?_, emitDecisionTickAllZero num count, by decide⟩
  · intro htw hjt
    subst htw
    subst hjt
    rw [emitDecisionTickAllZero]
    have hfst : (haltTick num count).1
        = if num ≠ 0 ∧ count > num then false else true := rfl
    have hsnd : (haltTick num count).2
        = if count < intMaxValue then count + 1 else count := rfl
    refine ⟨?_, ?_, ?_⟩
    · rw [hfst]
      split_ifs with h
      · simp only [Bool.false_eq_true, false_iff]
        omega
      · simp only [true_iff]
        omega
    · intro h
      rw [hsnd, if_pos h]
    · intro h
      rw [hsnd, if_neg (not_lt.mpr h)]
  · intro h
    constructor
    · show (if (tw || jt) = false ∧ num ≠ 0 ∧ count > num then (false : Bool)
          else true) = true
      rw [if_neg (by rintro ⟨h0, -⟩; rw [h] at h0; exact absurd h0 (by simp))]
    · show (if (tw || jt) = false then
          (if count < intMaxValue then count + 1 else count) else 0) = 0
      rw [if_neg (by rw [h]; simp)]

/-- Claim C4, witness: the amended theorem applied at concrete inputs —
the all-zero tick at `num = 2`, `count = 0` publishes and moves the
counter to 1; the stale-nonzero tick at `num = 2`, `count = 5` publishes
and resets the counter. -/
theorem emitDecisionTickCasesWitness :
    ((emitDecisionTick false false 2 0).1 = true ∧
      (emitDecisionTick false false 2 0).2 = 1) ∧
    ((emitDecisionTick true false 2 5).1 = true ∧
      (emitDecisionTick true false 2 5).2 = 0) := by
  have h1 := emitDecisionTickCases false false 2 0
  have h2 := emitDecisionTickCases true false 2 5
  exact ⟨⟨(h1.1 rfl rfl).1.mpr (Or.inr (by norm_num)),
      (h1.1 rfl rfl).2.1 (by norm_num [intMaxValue])⟩,
    h2.2.1 rfl⟩

/-- Claim C3, counterexample: a received collision velocity scale of 2 is
stored raw by the callback and applied unclamped by the tick: the joint
delta 1 becomes 2, i.e. the applied multiplier is 2, which lies outside
[0, 1] — the claim says the applied multiplier never does. -/
theorem collisionScaleNotClampedCex :
    collisionVelocityScaleCB 2 = 2 ∧
    (applyCollisionScale 2 1 StatusCode.NO_WARNING).1 = 2 ∧
    ¬((2 : ℚ) ≤ 1) := by
  refine ⟨rfl, ?_, by norm_num⟩
  norm_num [applyCollisionScale]

/-- Claim C3, amended: the collision velocity scale is applied to the joint
delta exactly as received, with no clamping anywhere on the path; the
status is raised to DECELERATE_FOR_COLLISION when 0 < c < 1 and to
HALT_FOR_COLLISION when c = 0 (and left alone otherwise); only for
received values already inside [0, 1] is the applied multiplier inside
[0, 1], in which case the delta is not amplified. -/
theorem applyCollisionScaleBehaviour (c delta : ℚ) (st : StatusCode) :
    (applyCollisionScale c delta st).1 = c * delta ∧
    collisionVelocityScaleCB c = c ∧
    (0 < c → c < 1 →
      (applyCollisionScale c delta st).2 = StatusCode.DECELERATE_FOR_COLLISION) ∧
    (c = 0 → (applyCollisionScale c delta st).2 = StatusCode.HALT_FOR_COLLISION) ∧
    (1 ≤ c → (applyCollisionScale c delta st).2 = st) ∧
    (c < 0 → (applyCollisionScale c delta st).2 = st) ∧
    (0 ≤ c → c ≤ 1 → |(applyCollisionScale c delta st).1| ≤ |delta|) := by
  have hfst : (applyCollisionScale c delta st).1 = c * delta := rfl
  have hsnd : (applyCollisionScale c delta st).2 =
      if 0 < c ∧ c < 1 then StatusCode.DECELERATE_FOR_COLLISION
      else if c = 0 then StatusCode.HALT_FOR_COLLISION
      else st := rfl
  refine ⟨hfst, rfl, ?_, ?_, ?_, ?_, ?_⟩
  · intro h1 h2
    rw [hsnd, if_pos ⟨h1, h2⟩]
  · intro h
    rw [hsnd, if_neg (by rintro ⟨h1, _⟩; rw [h] at h1; exact lt_irrefl 0 h1), if_pos h]
  · intro h
    rw [hsnd, if_neg (by rintro ⟨_, h2⟩; exact absurd h (not_le.mpr h2)),
      if_neg (by intro h0; rw [h0] at h; exact absurd h (by norm_num))]
  · intro h
    rw [hsnd, if_neg (by rintro ⟨h1, _⟩; exact absurd h (not_lt.mpr (le_of_lt h1))),
      if_neg (fun h0 => absurd h (by rw [h0]; exact lt_irrefl 0))]
  · intro h0 h1
    rw [hfst, abs_mul]
    calc |c| * |delta| ≤ 1 * |delta| := by
          apply mul_le_mul_of_nonneg_right _ (abs_nonneg _)
          rw [abs_of_nonneg h0]
          exact h1
      _ = |delta| := one_mul _

/-- Claim C3, witness: the amended theorem applied at a received scale of
1/2 and delta 2: the status is DECELERATE_FOR_COLLISION and the applied
delta is not amplified. -/
theorem applyCollisionScaleBehaviourWitness :
    (applyCollisionScale (1 / 2) 2 StatusCode.NO_WARNING).2 =
        StatusCode.DECELERATE_FOR_COLLISION ∧
      |(applyCollisionScale (1 / 2) 2 StatusCode.NO_WARNING).1| ≤ |(2 : ℚ)| := by
  have h := applyCollisionScaleBehaviour (1 / 2) 2 StatusCode.NO_WARNING
  exact ⟨h.2.2.1 (by norm_num) (by norm_num),
    h.2.2.2.2.2.2 (by norm_num) (by norm_num)⟩

/-- Claim C8, counterexample: from the initial state (retained stamp 0, as
`latest_twist_command_stamp_ = rclcpp::Time(0.)`), a nonzero twist arriving
with a zero-valued stamp leaves the retained stamp at 0, and at `now = 5`
with timeout 1 the staleness computation classifies the command as stale —
the claim says such a command is never marked stale by age. -/
theorem zeroStampStillStaleCex :
    (twistStampedCB
        { latest_twist_stamped := none, latest_nonzero_twist_stamped := false,
          latest_twist_command_stamp := 0 }
        { linear_x := Fp.finite 1, linear_y := Fp.finite 0, linear_z := Fp.finite 0,
          angular_x := Fp.finite 0, angular_y := Fp.finite 0, angular_z := Fp.finite 0 }
        0).latest_twist_command_stamp = 0 ∧
    twistCommandIsStale 5 0 1 = true := by
  constructor
  · simp [twistStampedCB]
  · simp only [twistCommandIsStale, decide_eq_true_eq]
    norm_num

/-- Claim C8, amended: a command arriving with a zero-valued stamp is
treated as present (the message and its nonzero flag are stored) but the
retained stamp is left unchanged, so on every tick the staleness
computation yields exactly what it would have yielded from the previously
retained stamp: the arrival itself never affects staleness, but the
command can still be classified stale whenever `now - retained_stamp`
reaches the timeout (in particular always, when no nonzero-stamped command
was ever received recently). -/
theorem twistStampedCBZeroStampBehaviour (slot : TwistCommandSlot) (msg : Twist)
    (now timeout : ℚ) :
    (twistStampedCB slot msg 0).latest_twist_stamped = some msg ∧
    (twistStampedCB slot msg 0).latest_nonzero_twist_stamped = isNonZeroTwist msg ∧
    (twistStampedCB slot msg 0).latest_twist_command_stamp
      = slot.latest_twist_command_stamp ∧
    twistCommandIsStale now (twistStampedCB slot msg 0).latest_twist_command_stamp timeout
      = twistCommandIsStale now slot.latest_twist_command_stamp timeout := by
  have hstamp : (twistStampedCB slot msg 0).latest_twist_command_stamp
      = slot.latest_twist_command_stamp := by
    simp [twistStampedCB]
  exact ⟨rfl, rfl, hstamp, by rw [hstamp]⟩

/-- Claim C5, counterexample: in `speed_units` mode a twist whose linear.x
component is +∞ passes `checkValidCommand` — only `std::isnan` is checked,
so the non-finite command is accepted, where the claim demands rejection. -/
theorem checkValidCommandInfiniteCex :
    checkValidCommandTwist CommandInType.speed_units
        { linear_x := Fp.posInf, linear_y := Fp.finite 0, linear_z := Fp.finite 0,
          angular_x := Fp.finite 0, angular_y := Fp.finite 0, angular_z := Fp.finite 0 }
      = true ∧
    Fp.isFiniteVal Fp.posInf = false := by
  exact ⟨rfl, rfl⟩

/-- Helper: a component passes both the NaN check and the unitless
magnitude check exactly when it is a finite value of magnitude at most 1. -/
theorem fpValidComponentChar (c : Fp) :
    (c.isNaN = false ∧ c.absGtOne = false) ↔ ∃ q, c = Fp.finite q ∧ |q| ≤ 1 := by
  cases c with
  | finite q =>
    constructor
    · rintro ⟨-, habs⟩
      refine ⟨q, rfl, ?_⟩
      have := of_decide_eq_false habs
      exact not_lt.mp this
    · rintro ⟨q', hq, h⟩
      refine ⟨rfl, ?_⟩
      cases hq
      exact decide_eq_false (not_lt.mpr h)
  | nan => simp [Fp.isNaN]
  | posInf => simp [Fp.absGtOne]
  | negInf => simp [Fp.absGtOne]

/-- Helper: the twist validity check accepts exactly when no component is
NaN and, in unitless mode, no component has magnitude above 1 in the IEEE
comparison sense. -/
theorem checkValidCommandTwistChar (cit : CommandInType) (cmd : Twist) :
    checkValidCommandTwist cit cmd = true ↔
      (cmd.components.any Fp.isNaN = false ∧
       (cit = CommandInType.unitless → cmd.components.any Fp.absGtOne = false)) := by
  unfold checkValidCommandTwist
  split_ifs with h1 h2
  · simp only [Bool.false_eq_true, false_iff, not_and]
    intro hn
    rw [h1] at hn
    exact absurd hn (by norm_num)
  · simp only [Bool.false_eq_true, false_iff, not_and]
    intro _ himp
    have := himp h2.1
    rw [h2.2] at this
    exact absurd this (by norm_num)
  · simp only [true_iff]
    constructor
    · exact Bool.not_eq_true _ ▸ (Bool.eq_false_iff.mpr h1)
    · intro hu
      by_contra habs
      exact h2 ⟨hu, eq_true_of_ne_false habs⟩

/-- Claim C5, amended: a TwistCmd is accepted iff no component is NaN and,
when `command_in_type` is `unitless`, every component is a finite value of
magnitude at most 1; infinities are rejected only through the unitless
magnitude check (in `speed_units` mode a twist containing an infinite
component is accepted).  A rejected command produces no outgoing trajectory
that cycle and leaves the status unchanged. -/
theorem checkValidCommandTwistAmended (cit : CommandInType) (cmd : Twist)
    (st : StatusCode) (computed : List ℚ) :
    (checkValidCommandTwist cit cmd = true ↔
      ((∀ c ∈ cmd.components, c.isNaN = false) ∧
       (cit = CommandInType.unitless →
         ∀ c ∈ cmd.components, ∃ q, c = Fp.finite q ∧ |q| ≤ 1))) ∧
    (checkValidCommandTwist cit cmd = false →
      cartesianBranchOutcome cit cmd st computed = (none, st)) := by
  constructor
  · rw [checkValidCommandTwistChar]
    constructor
    · rintro ⟨hn, hu⟩
      have hn' : ∀ c ∈ cmd.components, c.isNaN = false := by
        intro c hc
        have := List.any_eq_false.mp hn c hc
        exact Bool.eq_false_iff.mpr this
      refine ⟨hn', fun hcit c hc => ?_⟩
      have habs := List.any_eq_false.mp (hu hcit) c hc
      exact (fpValidComponentChar c).mp ⟨hn' c hc, Bool.eq_false_iff.mpr habs⟩
    · rintro ⟨hn, hu⟩
      constructor
      · rw [List.any_eq_false]
        intro c hc
        rw [hn c hc]
        norm_num
      · intro hcit
        rw [List.any_eq_false]
        intro c hc
        have := ((fpValidComponentChar c).mpr (hu hcit c hc)).2
        rw [this]
        norm_num
  · intro h
    simp [cartesianBranchOutcome, h]

/-- Claim C5, witness: the amended theorem applied in unitless mode to a
twist with linear.x = 2: the command is rejected, the branch emits nothing
and the status is untouched. -/
theorem checkValidCommandTwistAmendedWitness :
    cartesianBranchOutcome CommandInType.unitless
        { linear_x := Fp.finite 2, linear_y := Fp.finite 0, linear_z := Fp.finite 0,
          angular_x := Fp.finite 0, angular_y := Fp.finite 0, angular_z := Fp.finite 0 }
        StatusCode.NO_WARNING [] = (none, StatusCode.NO_WARNING) :=
  (checkValidCommandTwistAmended CommandInType.unitless
      { linear_x := Fp.finite 2, linear_y := Fp.finite 0, linear_z := Fp.finite 0,
        angular_x := Fp.finite 0, angular_y := Fp.finite 0, angular_z := Fp.finite 0 }
      StatusCode.NO_WARNING []).2
    (by
      simp only [checkValidCommandTwist, Twist.components]
      norm_num [Fp.isNaN, Fp.absGtOne])

/-- Claim C2, counterexample: T = 1, previous velocity -2, bounds
`v ∈ [-2, 1]`, `a ∈ [-1/10, 1/10]`, delta -3/2, collision scale 1 (all
hypotheses of the claim hold).  The acceleration clip is skipped because
its `|relative_change| = 19/15 ≥ 1` guard fires, and the velocity clip
does not engage since -3/2 ∈ [-2, 1], so the emitted velocity is -3/2:
its magnitude 3/2 exceeds `v_max = 1` by 1/2 and the implied acceleration
1/2 exceeds `a_max = 1/10` by 2/5 — far beyond any rounding ε. -/
theorem emittedJointVelocityLimitsCex :
    emittedJointVelocity 1
        { velocity_bounded := true, min_velocity := -2, max_velocity := 1,
          acceleration_bounded := true, min_acceleration := -1 / 10,
          max_acceleration := 1 / 10 }
        (-2) (-3 / 2) 1 = -3 / 2 ∧
    ¬(|(-3 / 2 : ℚ)| ≤ 1) ∧
    ¬(|((-3 / 2 : ℚ) - -2) / 1| ≤ 1 / 10) := by
  refine ⟨?_, ?_, ?_⟩
  · simp only [emittedJointVelocity, enforceSingleVelAccelLimit, clipAccelStep,
      clipVelStep]
    rw [show |((1 / 10 * 1 + -2) * 1 : ℚ) / (-3 / 2)| = 19 / 15 by
        rw [show ((1 / 10 * 1 + -2) * 1 : ℚ) / (-3 / 2) = 19 / 15 by norm_num,
          abs_of_nonneg (by norm_num)]]
    norm_num
  · rw [show |(-3 / 2 : ℚ)| = 3 / 2 by
        rw [abs_of_nonpos (by norm_num : (-3 / 2 : ℚ) ≤ 0)]; norm_num]
    norm_num
  · rw [show ((-3 / 2 : ℚ) - -2) / 1 = 1 / 2 by norm_num,
      abs_of_nonneg (by norm_num : (0 : ℚ) ≤ 1 / 2)]
    norm_num

/-- Helper: after the velocity-clip step the implied joint velocity
`delta / T` lies inside the joint's velocity bounds, for any incoming
delta, provided the period is positive and the bounds straddle zero. -/
theorem clipVelStepWithinBounds (T : ℚ) (bound : VariableBounds) (d : ℚ)
    (hT : 0 < T) (hb : bound.velocity_bounded = true)
    (hmin : bound.min_velocity ≤ 0) (hmax : 0 ≤ bound.max_velocity) :
    bound.min_velocity ≤ clipVelStep T bound d / T ∧
      clipVelStep T bound d / T ≤ bound.max_velocity := by
  have hT0 : T ≠ 0 := ne_of_gt hT
  obtain ⟨vb, vmin, vmax, ab, amin, amax⟩ := bound
  dsimp only at hb hmin hmax ⊢
  subst hb
  unfold clipVelStep
  rw [if_pos rfl]
  dsimp only
  split_ifs with h1 h2 h3 h4
  · -- d / T < vmin and the clip applies
    have hdneg : d < 0 := by
      have hq : d / T < 0 := lt_of_lt_of_le h1 hmin
      rcases div_neg_iff.mp hq with ⟨_, hTneg⟩ | ⟨hdneg, _⟩
      · linarith
      · exact hdneg
    have : vmin * T / d * d = vmin * T := div_mul_cancel₀ _ (ne_of_lt hdneg)
    rw [this, mul_div_cancel_right₀ _ hT0]
    exact ⟨le_refl _, le_trans hmin hmax⟩
  · -- d / T < vmin but the guard refused: impossible, |vmin/v| < 1 always here
    exfalso
    apply h2
    have hdneg : d < 0 := by
      have hq : d / T < 0 := lt_of_lt_of_le h1 hmin
      rcases div_neg_iff.mp hq with ⟨_, hTneg⟩ | ⟨hdneg, _⟩
      · linarith
      · exact hdneg
    rw [abs_div, div_lt_one (abs_pos.mpr (ne_of_lt hdneg)), abs_of_neg hdneg,
      abs_of_nonpos (mul_nonpos_iff.mpr (Or.inr ⟨hmin, le_of_lt hT⟩))]
    have hdlt : d < vmin * T := by
      have := (div_lt_iff₀ hT).mp h1
      linarith
    linarith
  · -- vmin ≤ d / T, d / T > vmax and the clip applies
    have hdpos : 0 < d := by
      have hq : 0 < d / T := lt_of_le_of_lt hmax h3
      rcases div_pos_iff.mp hq with ⟨hdpos, _⟩ | ⟨_, hTneg⟩
      · exact hdpos
      · linarith
    have : vmax * T / d * d = vmax * T := div_mul_cancel₀ _ (ne_of_gt hdpos)
    rw [this, mul_div_cancel_right₀ _ hT0]
    exact ⟨le_trans hmin hmax, le_refl _⟩
  · -- d / T > vmax but the guard refused: impossible
    exfalso
    apply h4
    have hdpos : 0 < d := by
      have hq : 0 < d / T := lt_of_le_of_lt hmax h3
      rcases div_pos_iff.mp hq with ⟨hdpos, _⟩ | ⟨_, hTneg⟩
      · exact hdpos
      · linarith
    rw [abs_div, div_lt_one (abs_pos.mpr (ne_of_gt hdpos)), abs_of_pos hdpos,
      abs_of_nonneg (mul_nonneg hmax (le_of_lt hT))]
    have := (lt_div_iff₀ hT).mp h3
    linarith
  · -- no clip: already inside the bounds
    exact ⟨not_lt.mp h1, not_lt.mp h3⟩

/-- Claim C2, amended: for every joint with velocity bounds straddling zero
and any collision scale in [0, 1], the emitted joint velocity lies in
`[v_min, v_max]` exactly (so its magnitude is at most
`max(v_max, -v_min)`, not necessarily `v_max`); no acceleration guarantee
survives the velocity clip and the subsequent collision scaling. -/
theorem emittedJointVelocityWithinBounds (T prev_vel delta collision_scale : ℚ)
    (bound : VariableBounds) (hT : 0 < T) (hb : bound.velocity_bounded = true)
    (hmin : bound.min_velocity ≤ 0) (hmax : 0 ≤ bound.max_velocity)
    (hc0 : 0 ≤ collision_scale) (hc1 : collision_scale ≤ 1) :
    bound.min_velocity ≤ emittedJointVelocity T bound prev_vel delta collision_scale ∧
      emittedJointVelocity T bound prev_vel delta collision_scale
        ≤ bound.max_velocity := by
  obtain ⟨hl, hr⟩ := clipVelStepWithinBounds T bound
    (clipAccelStep T bound prev_vel ((delta / T - prev_vel) / T) delta) hT hb hmin hmax
  have hemit : emittedJointVelocity T bound prev_vel delta collision_scale
      = collision_scale *
        (clipVelStep T bound
          (clipAccelStep T bound prev_vel ((delta / T - prev_vel) / T) delta) / T) := by
    rw [emittedJointVelocity, enforceSingleVelAccelLimit, mul_div_assoc]
  set v := clipVelStep T bound
    (clipAccelStep T bound prev_vel ((delta / T - prev_vel) / T) delta) / T
  rw [hemit]
  constructor
  · rcases le_or_lt 0 v with h0 | h0
    · exact le_trans hmin (mul_nonneg hc0 h0)
    · have := mul_le_mul_of_nonpos_right hc1 (le_of_lt h0)
      rw [one_mul] at this
      linarith
  · rcases le_or_lt 0 v with h0 | h0
    · have := mul_le_mul_of_nonneg_right hc1 h0
      rw [one_mul] at this
      linarith
    · exact le_trans (mul_nonpos_iff.mpr (Or.inl ⟨hc0, le_of_lt h0⟩)) hmax

/-- Claim C2, witness: the amended theorem applied at T = 1, velocity
bounds [-1, 1], no acceleration bound, previous velocity 0, delta 5,
collision scale 1: the emitted velocity lies in [-1, 1]. -/
theorem emittedJointVelocityWithinBoundsWitness :
    (-1 : ℚ) ≤ emittedJointVelocity 1
        { velocity_bounded := true, min_velocity := -1, max_velocity := 1,
          acceleration_bounded := false, min_acceleration := 0,
          max_acceleration := 0 }
        0 5 1 ∧
      emittedJointVelocity 1
        { velocity_bounded := true, min_velocity := -1, max_velocity := 1,
          acceleration_bounded := false, min_acceleration := 0,
          max_acceleration := 0 }
        0 5 1 ≤ 1 :=
  emittedJointVelocityWithinBounds 1 0 5 1
    { velocity_bounded := true, min_velocity := -1, max_velocity := 1,
      acceleration_bounded := false, min_acceleration := 0, max_acceleration := 0 }
    (by norm_num) rfl (by norm_num) (by norm_num) (by norm_num) (by norm_num)

/-- Claim C6: at the failing input (entry positions `[0]`, pseudoinverse
`[[1]]`, singular direction `[1]`), the kinematic state on return from the
singularity analyzer holds the probe-perturbed positions `[1/100]`, not
the entry positions `[0]`: the probe perturbation is never undone. -/
theorem probePositionsNotRestored :
    probeReturnPositions [0] [[1]] [1] = [1 / 100] ∧
      ([1 / 100] : List ℚ) ≠ [0] := by
  constructor
  · norm_num [probeReturnPositions, matVecMul, dotList]
  · norm_num

/-- Claim C7, counterexample: with two active joints — the first with
velocity 1 and acceleration bounds (-2, 2), the second with velocity 10
and no acceleration bound — the code publishes 5: the unbounded joint is
not skipped but divides its velocity by the stale limit 2 of the previous
joint; skipping it as the claim states would give 1/2. -/
theorem worstCaseStopTimeStaleLimitCex :
    calculateWorstCaseStopTime
        [{ velocity := 1, accel_bounds := some (-2, 2) },
         { velocity := 10, accel_bounds := none }] = 5 ∧
    claimedWorstCaseStopTime
        [{ velocity := 1, accel_bounds := some (-2, 2) },
         { velocity := 10, accel_bounds := none }] = 1 / 2 ∧
    (5 : ℚ) ≠ 1 / 2 := by
  refine ⟨?_, ?_, by norm_num⟩
  · simp only [calculateWorstCaseStopTime, worstCaseStopTimeAux]
    rw [show |(-2 : ℚ)| = 2 by rw [abs_of_nonpos (by norm_num : (-2 : ℚ) ≤ 0)]; norm_num,
      show |(2 : ℚ)| = 2 from abs_of_nonneg (by norm_num)]
    norm_num [abs_of_nonneg]
  · simp only [claimedWorstCaseStopTime, List.foldl_cons, List.foldl_nil,
      claimedStopTimeStep]
    rw [show |(-2 : ℚ)| = 2 by rw [abs_of_nonpos (by norm_num : (-2 : ℚ) ≤ 0)]; norm_num,
      show |(2 : ℚ)| = 2 from abs_of_nonneg (by norm_num)]
    norm_num [abs_of_nonneg]

/-- Helper: when every joint carries acceleration bounds the stale-limit
accumulator of the code's loop is always overwritten before use, so the
loop computes the same fold as the skip-free maximum, whatever the incoming
accumulator values. -/
theorem worstCaseStopTimeAuxAllBounded :
    ∀ (js : List StopTimeJoint) (accel_limit worst : ℚ),
      (∀ j ∈ js, j.accel_bounds.isSome = true) →
      worstCaseStopTimeAux js accel_limit worst = js.foldl claimedStopTimeStep worst := by
  intro js
  induction js with
  | nil => intro accel_limit worst _; rfl
  | cons j rest ih =>
    intro accel_limit worst hall
    obtain ⟨b, hb⟩ := Option.isSome_iff_exists.mp (hall j (List.mem_cons_self _ _))
    rw [List.foldl_cons]
    simp only [worstCaseStopTimeAux, hb, claimedStopTimeStep]
    exact ih _ _ (fun x hx => hall x (List.mem_cons_of_mem _ hx))

/-- Claim C7, amended: the published worst-case stop time equals the
maximum over the joints of `|velocity / accel_limit|` (with
`accel_limit = min(|min_accel|, |max_accel|)`) whenever every active joint
has an acceleration bound; a joint lacking a bound is not skipped — it
contributes `|velocity|` divided by the most recently seen limit
(initially 0) — and the value is published every tick. -/
theorem calculateWorstCaseStopTimeAllBounded (js : List StopTimeJoint)
    (hall : ∀ j ∈ js, j.accel_bounds.isSome = true) :
    calculateWorstCaseStopTime js = claimedWorstCaseStopTime js := by
  unfold calculateWorstCaseStopTime claimedWorstCaseStopTime
  exact worstCaseStopTimeAuxAllBounded js 0 0 hall

/-- Claim C7, witness: the amended theorem applied to two fully bounded
joints. -/
theorem calculateWorstCaseStopTimeAllBoundedWitness :
    calculateWorstCaseStopTime
        [{ velocity := 1, accel_bounds := some (-2, 2) },
         { velocity := 3, accel_bounds := some (-1, 4) }]
      = claimedWorstCaseStopTime
        [{ velocity := 1, accel_bounds := some (-2, 2) },
         { velocity := 3, accel_bounds := some (-1, 4) }] :=
  calculateWorstCaseStopTimeAllBounded _ (by simp)

/-- Helper: folding point assignments over a list of indices preserves the
length of the points vector. -/
theorem foldlSetPointsLength (f : ℕ → TrajPoint) :
    ∀ (idxs : List ℕ) (init : List TrajPoint),
      (idxs.foldl (fun acc i => acc.set i (f i)) init).length = init.length := by
  intro idxs
  induction idxs with
  | nil => intro init; rfl
  | cons i rest ih =>
    intro init
    rw [List.foldl_cons, ih, List.length_set]

/-- Helper: folding point assignments over a list of indices leaves every
position whose index is not in the list untouched. -/
theorem foldlSetPointsGetElemNotMem (f : ℕ → TrajPoint) (k : ℕ) :
    ∀ (idxs : List ℕ) (init : List TrajPoint), k ∉ idxs →
      (idxs.foldl (fun acc i => acc.set i (f i)) init)[k]? = init[k]? := by
  intro idxs
  induction idxs with
  | nil => intro init _; rfl
  | cons i rest ih =>
    intro init hk
    rw [List.foldl_cons, ih _ (fun h => hk (List.mem_cons_of_mem _ h)),
      List.getElem?_set_ne (fun (h : i = k) => hk (h ▸ List.mem_cons_self i rest))]

/-- Claim C9: at the failing input (a single computed trajectory point with
two joints, `count = 30`, `T = 1/100`), the Gazebo duplication produces 30
points but leaves `points[1]` default-constructed (time 0, empty position
and velocity vectors), while `points[2]` is a copy of the computed point;
so not every point carries the computed data. -/
theorem insertRedundantPointsSkipsPointOne :
    (insertRedundantPointsIntoTrajectory
        [{ time_from_start := 1 / 100, positions := [1 / 2, 1 / 3], velocities := [1, 2] }]
        30 (1 / 100)).length = 30 ∧
    (insertRedundantPointsIntoTrajectory
        [{ time_from_start := 1 / 100, positions := [1 / 2, 1 / 3], velocities := [1, 2] }]
        30 (1 / 100))[1]? = some defaultTrajPoint ∧
    (insertRedundantPointsIntoTrajectory
        [{ time_from_start := 1 / 100, positions := [1 / 2, 1 / 3], velocities := [1, 2] }]
        30 (1 / 100))[2]? =
      some { time_from_start := 2 / 100, positions := [1 / 2, 1 / 3], velocities := [1, 2] } ∧
    defaultTrajPoint.positions = [] := by
  have key : insertRedundantPointsIntoTrajectory
      [{ time_from_start := 1 / 100, positions := [1 / 2, 1 / 3], velocities := [1, 2] }]
      30 (1 / 100) =
    ((List.range 30).drop 2).foldl
      (fun acc i => acc.set i
        { time_from_start := (i : ℚ) * (1 / 100), positions := [1 / 2, 1 / 3],
          velocities := [1, 2] })
      ({ time_from_start := (1 : ℚ) / 100, positions := [1 / 2, 1 / 3],
          velocities := [1, 2] } :: List.replicate 29 defaultTrajPoint) := rfl
  refine ⟨?_, ?_, ?_, rfl⟩
  · rw [key, foldlSetPointsLength]
    rfl
  · rw [key, foldlSetPointsGetElemNotMem _ 1 _ _ (by decide),
      List.getElem?_cons_succ, List.getElem?_replicate]
    norm_num
  · have hsplit : (List.range 30).drop 2 = 2 :: (List.range 30).drop 3 := by decide
    rw [key, hsplit, List.foldl_cons,
      foldlSetPointsGetElemNotMem _ 2 _ _ (by decide),
      List.getElem?_set_self
        (by rw [List.length_cons, List.length_replicate]; norm_num)]
    norm_num

/-- Claim C10: an empty JointJog velocity list is classified all-zero by
`isNonZero`, hence the joint branch can never be selected on its account —
whatever the twist flags are — and when no nonzero twist is present the
tick falls through to the no-motion path, so the indexing of the empty
velocities in the joint branch is unreachable. -/
theorem emptyJogSelectsNoMotion :
    isNonZeroJog [] = false ∧
    (∀ tnz ts js : Bool,
      selectBranch tnz ts (isNonZeroJog []) js ≠ TickBranch.joint) ∧
    (∀ ts js : Bool,
      selectBranch false ts (isNonZeroJog []) js = TickBranch.noMotion) := by
  refine ⟨by decide, by decide, by decide⟩

end MoveitServo
